import Mathlib

set_option maxHeartbeats 1000000

/-
Verification of the zrepl `endpoint` package (endpoint.go) and of the
bounded-concurrency semaphore used by its callers.

The Go code is embedded shallowly: the ZFS backend (package zfs), the
protobuf codec and the streamrpc transport are external collaborators and
are modelled as oracles (fields of environment structures), while the
control flow of endpoint.go is translated statement by statement.  Each
operation additionally returns a trace of the backend invocations it
performed, so that claims of the form "no backend operation is invoked"
are statable.  Logging calls (getLogger) have no observable effect and are
dropped; byte streams are identified by natural numbers.
-/

deriving instance DecidableEq for Except

namespace Zrepl

/-- Go `error` values as they occur in endpoint.go: the distinguished
`replication.NewFilteredError` (carrying the filesystem name), generic
errors made with `errors.New`/`fmt.Errorf` (constructor `msg`), and
errors produced by `proto.Unmarshal` (constructor `decode`). -/
inductive GoError where
  | filtered (fs : String)
  | msg (s : String)
  | decode (s : String)
  deriving DecidableEq, Repr

/-- zfs.DatasetPath: an ordered sequence of path components.  Equality is
component-sequence equality; ancestors are the strict non-empty leading
segments, root first. -/
abbrev DatasetPath := List String

/-- pdu.FilesystemVersion_Type: the discriminated version kind. -/
inductive VersionType where
  | Snapshot
  | Bookmark
  deriving DecidableEq, Repr

/-- pdu.FilesystemVersion (the wire message): kind and name.  The Go field
`Type` is spelled `typ` because `Type` is reserved in Lean. -/
structure PduFilesystemVersion where
  typ : VersionType
  Name : String
  deriving DecidableEq, Repr

/-- zfs.FilesystemVersion: the backend view of a version. -/
structure ZfsFilesystemVersion where
  typ : VersionType
  Name : String
  deriving DecidableEq, Repr

/-- Modelled from the spec: pdu.FilesystemVersionFromZFS (package pdu is
not under src/).  Per section 3 of the spec a FilesystemVersion is its kind
and name, so the conversion is field-wise. -/
def FilesystemVersionFromZFS (v : ZfsFilesystemVersion) : PduFilesystemVersion :=
  { typ := v.typ, Name := v.Name }

/-- pdu.SendReq: filesystem plus the two version bounds. -/
structure SendReq where
  Filesystem : String
  From : String
  To : String
  deriving DecidableEq, Repr

/-- pdu.SendRes (only the field endpoint.go touches). -/
structure SendRes where
  ExpectedSize : Int
  deriving DecidableEq, Repr

/-- pdu.DestroySnapshotRes: one per-item outcome of a batch destroy; an
empty `Error` text means the item succeeded. -/
structure DestroySnapshotRes where
  Snapshot : PduFilesystemVersion
  Error : String
  deriving DecidableEq, Repr

/-- pdu.DestroySnapshotsRes. -/
structure DestroySnapshotsRes where
  Results : List DestroySnapshotRes
  deriving DecidableEq, Repr

/-- The backend invocations a Sender operation can perform.  Path parsing
(zfs.NewDatasetPath) and the path filter are pure policy checks, not
backend operations, so they are not traced. -/
inductive SCall where
  | listVersions (dp : DatasetPath)
  | sendDry (fs fromV toV : String)
  | send (fs fromV toV : String)
  | destroy (dp : DatasetPath) (v : ZfsFilesystemVersion)
  deriving DecidableEq, Repr

/-- Oracle environment for the Sender: outcomes of the zfs backend calls
made by endpoint.go.  `zfsListFilesystemVersions` already includes the
effect of the version filter the Sender passes through to the backend;
`zfsDestroyFilesystemVersion` returns `some errText` when the backend
destroy fails; `zfsFilesystemVersion` is pdu.FilesystemVersion's fallible
conversion to the zfs representation. -/
structure SenderEnv where
  newDatasetPath : String → Except GoError DatasetPath
  zfsListFilesystemVersions : DatasetPath → Except GoError (List ZfsFilesystemVersion)
  zfsSendDry : String → String → String → Except GoError Int
  zfsSend : String → String → String → Except GoError Nat
  zfsDestroyFilesystemVersion : DatasetPath → ZfsFilesystemVersion → Option String
  zfsFilesystemVersion : PduFilesystemVersion → Except GoError ZfsFilesystemVersion

/-- endpoint.Sender: its dataset path filter (FSFilter.Filter may fail
with an error distinct from denial).  The version filter field only flows
into the backend listing call, which the environment models. -/
structure Sender where
  FSFilter : DatasetPath → Except GoError Bool

/-- Sender.ListFilesystemVersions from endpoint.go: parse, filter, deny
with the distinguished filtered error, otherwise list via the backend. -/
def Sender.ListFilesystemVersions (p : Sender) (env : SenderEnv) (fs : String) :
    Except GoError (List PduFilesystemVersion) × List SCall :=
  match env.newDatasetPath fs with
  | .error e => (.error e, [])
  | .ok dp =>
    match p.FSFilter dp with
    | .error e => (.error e, [])
    | .ok pass =>
      if pass = false then (.error (.filtered fs), [])
      else
        match env.zfsListFilesystemVersions dp with
        | .error e => (.error e, [SCall.listVersions dp])
        | .ok fsvs => (.ok (fsvs.map FilesystemVersionFromZFS), [SCall.listVersions dp])

/-- Sender.Send from endpoint.go: parse, filter, dry-run size, then the
real send stream (a stream is a Nat identifier). -/
def Sender.Send (p : Sender) (env : SenderEnv) (r : SendReq) :
    Except GoError (SendRes × Nat) × List SCall :=
  match env.newDatasetPath r.Filesystem with
  | .error e => (.error e, [])
  | .ok dp =>
    match p.FSFilter dp with
    | .error e => (.error e, [])
    | .ok pass =>
      if pass = false then (.error (.filtered r.Filesystem), [])
      else
        match env.zfsSendDry r.Filesystem r.From r.To with
        | .error e => (.error e, [SCall.sendDry r.Filesystem r.From r.To])
        | .ok size =>
          match env.zfsSend r.Filesystem r.From r.To with
          | .error e =>
            (.error e, [SCall.sendDry r.Filesystem r.From r.To, SCall.send r.Filesystem r.From r.To])
          | .ok stream =>
            (.ok ({ ExpectedSize := size }, stream),
             [SCall.sendDry r.Filesystem r.From r.To, SCall.send r.Filesystem r.From r.To])

/-- First loop of doDestroySnapshots: reject any non-snapshot kind with a
hard error, convert each remaining item through the fallible
pdu→zfs conversion, stopping at the first failure. -/
def convertVersions (env : SenderEnv) : List PduFilesystemVersion → Except GoError (List ZfsFilesystemVersion)
  | [] => .ok []
  | fsv :: rest =>
    if fsv.typ ≠ VersionType.Snapshot then
      .error (.msg ("version " ++ fsv.Name ++ " is not a snapshot"))
    else
      match env.zfsFilesystemVersion fsv with
      | .error e => .error e
      | .ok v =>
        match convertVersions env rest with
        | .error e => .error e
        | .ok vs => .ok (v :: vs)

/-- Second loop of doDestroySnapshots: destroy each version independently,
recording the backend error text (or empty) per item. -/
def destroyEach (env : SenderEnv) (lp : DatasetPath) :
    List ZfsFilesystemVersion → List DestroySnapshotRes × List SCall
  | [] => ([], [])
  | v :: rest =>
    let errMsg :=
      match env.zfsDestroyFilesystemVersion lp v with
      | some m => m
      | none => ""
    let (rs, tr) := destroyEach env lp rest
    ({ Snapshot := FilesystemVersionFromZFS v, Error := errMsg } :: rs, SCall.destroy lp v :: tr)

/-- doDestroySnapshots from endpoint.go: kind check and conversion first
(returning a single hard error before any destroy), then one backend
destroy per item with per-item error capture. -/
def doDestroySnapshots (env : SenderEnv) (lp : DatasetPath) (snaps : List PduFilesystemVersion) :
    Except GoError DestroySnapshotsRes × List SCall :=
  match convertVersions env snaps with
  | .error e => (.error e, [])
  | .ok fsvs =>
    let (results, tr) := destroyEach env lp fsvs
    (.ok { Results := results }, tr)

/-- Sender.DestroySnapshots from endpoint.go: parse, filter, then delegate
to doDestroySnapshots. -/
def Sender.DestroySnapshots (p : Sender) (env : SenderEnv) (reqFilesystem : String)
    (snaps : List PduFilesystemVersion) :
    Except GoError DestroySnapshotsRes × List SCall :=
  match env.newDatasetPath reqFilesystem with
  | .error e => (.error e, [])
  | .ok dp =>
    match p.FSFilter dp with
    | .error e => (.error e, [])
    | .ok pass =>
      if pass = false then (.error (.filtered reqFilesystem), [])
      else doDestroySnapshots env dp snaps

/-- True exactly when the pdu→zfs version conversion succeeded. -/
def convOk : Except GoError ZfsFilesystemVersion → Bool
  | .ok _ => true
  | .error _ => false

/-- True exactly when a batch destroy failed at the batch level. -/
def isErrorResult : Except GoError DestroySnapshotsRes → Bool
  | .error _ => true
  | .ok _ => false

/-- The per-item results of a batch destroy (empty on batch-level error). -/
def resultsOf (x : Except GoError DestroySnapshotsRes) : List DestroySnapshotRes :=
  match x with
  | .ok r => r.Results
  | .error _ => []

/-- The zfs versions a destroy batch converts its request items to. -/
def convertedOf (env : SenderEnv) (snaps : List PduFilesystemVersion) : List ZfsFilesystemVersion :=
  match convertVersions env snaps with
  | .ok l => l
  | .error _ => []

/-- How many items of a destroy batch the backend fails. -/
def destroyFailCount (env : SenderEnv) (lp : DatasetPath) (snaps : List PduFilesystemVersion) : Nat :=
  (convertedOf env snaps).countP (fun v => (env.zfsDestroyFilesystemVersion lp v).isSome)

theorem convertVersions_error_of_bad (env : SenderEnv) :
    ∀ snaps : List PduFilesystemVersion,
      (∃ fsv ∈ snaps, fsv.typ ≠ VersionType.Snapshot) →
      ∃ e, convertVersions env snaps = .error e := by
  intro snaps
  induction snaps with
  | nil => rintro ⟨fsv, hmem, _⟩; exact absurd hmem (List.not_mem_nil fsv)
  | cons fsv rest ih =>
    rintro ⟨bad, hmem, hbad⟩
    by_cases hty : fsv.typ = VersionType.Snapshot
    · have hbadrest : bad ∈ rest := by
        rcases List.mem_cons.mp hmem with heq | h
        · exact absurd hty (heq ▸ hbad)
        · exact h
      obtain ⟨e, he⟩ := ih ⟨bad, hbadrest, hbad⟩
      cases hconv : env.zfsFilesystemVersion fsv with
      | error e2 => exact ⟨e2, by simp [convertVersions, hty, hconv]⟩
      | ok v => exact ⟨e, by simp [convertVersions, hty, hconv, he]⟩
    · exact ⟨.msg ("version " ++ fsv.Name ++ " is not a snapshot"), by simp [convertVersions, hty]⟩

theorem convertVersions_ok_exists (env : SenderEnv) :
    ∀ snaps : List PduFilesystemVersion,
      (∀ fsv ∈ snaps, fsv.typ = VersionType.Snapshot) →
      (∀ fsv ∈ snaps, convOk (env.zfsFilesystemVersion fsv) = true) →
      ∃ l, convertVersions env snaps = .ok l ∧ l.length = snaps.length := by
  intro snaps
  induction snaps with
  | nil => intro _ _; exact ⟨[], rfl, rfl⟩
  | cons fsv rest ih =>
    intro h1 h2
    have hty : fsv.typ = VersionType.Snapshot := h1 fsv (List.mem_cons_self fsv rest)
    have hc : convOk (env.zfsFilesystemVersion fsv) = true := h2 fsv (List.mem_cons_self fsv rest)
    cases hconv : env.zfsFilesystemVersion fsv with
    | error e => rw [hconv] at hc; exact absurd hc (by simp [convOk])
    | ok v =>
      obtain ⟨l, hl, hlen⟩ := ih (fun x hx => h1 x (List.mem_cons_of_mem _ hx))
        (fun x hx => h2 x (List.mem_cons_of_mem _ hx))
      exact ⟨v :: l, by simp [convertVersions, hty, hconv, hl], by simp [hlen]⟩

theorem destroyEach_cons (env : SenderEnv) (lp : DatasetPath) (v : ZfsFilesystemVersion)
    (rest : List ZfsFilesystemVersion) :
    destroyEach env lp (v :: rest) =
      ({ Snapshot := FilesystemVersionFromZFS v,
         Error := match env.zfsDestroyFilesystemVersion lp v with | some m => m | none => "" } ::
           (destroyEach env lp rest).1,
       SCall.destroy lp v :: (destroyEach env lp rest).2) := rfl

theorem destroyEach_spec (env : SenderEnv) (lp : DatasetPath) :
    ∀ fsvs : List ZfsFilesystemVersion,
      (∀ v ∈ fsvs, env.zfsDestroyFilesystemVersion lp v ≠ some "") →
      (destroyEach env lp fsvs).1.length = fsvs.length ∧
      (destroyEach env lp fsvs).1.countP (fun r => !(r.Error == "")) =
        fsvs.countP (fun v => (env.zfsDestroyFilesystemVersion lp v).isSome) ∧
      (destroyEach env lp fsvs).1.countP (fun r => r.Error == "") =
        fsvs.length - fsvs.countP (fun v => (env.zfsDestroyFilesystemVersion lp v).isSome) := by
  intro fsvs
  induction fsvs with
  | nil => intro _; exact ⟨rfl, rfl, rfl⟩
  | cons v rest ih =>
    intro h
    obtain ⟨hl, hne, hemp⟩ := ih (fun x hx => h x (List.mem_cons_of_mem _ hx))
    have hrestle : rest.countP (fun v => (env.zfsDestroyFilesystemVersion lp v).isSome) ≤ rest.length :=
      List.countP_le_length _
    cases hd : env.zfsDestroyFilesystemVersion lp v with
    | none =>
      refine ⟨?_, ?_, ?_⟩ <;>
        simp [destroyEach_cons, hd, List.countP_cons, hl, hne, hemp] <;> omega
    | some m =>
      have hm : m ≠ "" := fun h0 => h v (List.mem_cons_self v rest) (h0 ▸ hd)
      have hbeq : (m == "") = false := beq_eq_false_iff_ne.mpr hm
      refine ⟨?_, ?_, ?_⟩ <;>
        simp [destroyEach_cons, hd, List.countP_cons, hl, hne, hemp, hbeq] <;> omega

theorem doDestroySnapshots_ok (env : SenderEnv) (lp : DatasetPath)
    (snaps : List PduFilesystemVersion) (l : List ZfsFilesystemVersion)
    (h : convertVersions env snaps = .ok l) :
    doDestroySnapshots env lp snaps =
      (.ok { Results := (destroyEach env lp l).1 }, (destroyEach env lp l).2) := by
  simp [doDestroySnapshots, h]

/-- Claim C4: a destroy batch containing a non-snapshot kind fails with a
single hard error before any backend destroy is attempted; otherwise, with
every item a snapshot (and convertible), the call reports overall success
with exactly one result per requested item, of which exactly the
backend-failed ones carry a non-empty error text and the rest an empty
one. -/
theorem destroy_snapshots_batch (env : SenderEnv) (lp : DatasetPath)
    (snaps : List PduFilesystemVersion) :
    ((∃ fsv ∈ snaps, fsv.typ ≠ VersionType.Snapshot) →
       isErrorResult (doDestroySnapshots env lp snaps).1 = true ∧
       (doDestroySnapshots env lp snaps).2 = []) ∧
    ((∀ fsv ∈ snaps, fsv.typ = VersionType.Snapshot) →
     (∀ fsv ∈ snaps, convOk (env.zfsFilesystemVersion fsv) = true) →
     (∀ v ∈ convertedOf env snaps, env.zfsDestroyFilesystemVersion lp v ≠ some "") →
       isErrorResult (doDestroySnapshots env lp snaps).1 = false ∧
       (resultsOf (doDestroySnapshots env lp snaps).1).length = snaps.length ∧
       (resultsOf (doDestroySnapshots env lp snaps).1).countP (fun r => !(r.Error == "")) =
         destroyFailCount env lp snaps ∧
       (resultsOf (doDestroySnapshots env lp snaps).1).countP (fun r => r.Error == "") =
         snaps.length - destroyFailCount env lp snaps) := by
  constructor
  · intro hbad
    obtain ⟨e, he⟩ := convertVersions_error_of_bad env snaps hbad
    constructor <;> simp [doDestroySnapshots, he, isErrorResult]
  · intro h1 h2 h3
    obtain ⟨l, hl, hlen⟩ := convertVersions_ok_exists env snaps h1 h2
    have hconv : convertedOf env snaps = l := by simp [convertedOf, hl]
    rw [hconv] at h3
    obtain ⟨d1, d2, d3⟩ := destroyEach_spec env lp l h3
    rw [doDestroySnapshots_ok env lp snaps l hl]
    refine ⟨rfl, ?_, ?_, ?_⟩
    · simpa [resultsOf, d1] using hlen
    · simp [resultsOf, destroyFailCount, hconv, d2]
    · simp [resultsOf, d3, hlen, destroyFailCount, hconv]

/-- A sender whose path filter denies everything, with a trivial backend. -/
def senderW : Sender := { FSFilter := fun _ => .ok false }

def senderEnvW : SenderEnv :=
  { newDatasetPath := fun s => .ok [s]
    zfsListFilesystemVersions := fun _ => .ok []
    zfsSendDry := fun _ _ _ => .ok 0
    zfsSend := fun _ _ _ => .ok 0
    zfsDestroyFilesystemVersion := fun _ _ => none
    zfsFilesystemVersion := fun v => .ok { typ := v.typ, Name := v.Name } }

/-- Claim C2: a filter-denied path makes ListFilesystemVersions, Send and
DestroySnapshots return the distinguished filtered error, with no backend
call traced; the filtered error differs by construction from generic and
from decode errors. -/
theorem sender_filtered_paths_rejected (p : Sender) (env : SenderEnv) (fs : String)
    (snaps : List PduFilesystemVersion) (dp : DatasetPath)
    (hparse : env.newDatasetPath fs = .ok dp)
    (hfilter : p.FSFilter dp = .ok false) :
    Sender.ListFilesystemVersions p env fs = (.error (.filtered fs), []) ∧
    (∀ fromV toV, Sender.Send p env { Filesystem := fs, From := fromV, To := toV } =
       (.error (.filtered fs), [])) ∧
    Sender.DestroySnapshots p env fs snaps = (.error (.filtered fs), []) ∧
    (∀ m, GoError.filtered fs ≠ GoError.msg m) ∧
    (∀ m, GoError.filtered fs ≠ GoError.decode m) := by
  refine ⟨?_, ?_, ?_, ?_, ?_⟩
  · simp [Sender.ListFilesystemVersions, hparse, hfilter]
  · intro fromV toV
    simp [Sender.Send, hparse, hfilter]
  · simp [Sender.DestroySnapshots, hparse, hfilter]
  · intro m h; exact GoError.noConfusion h
  · intro m h; exact GoError.noConfusion h

theorem sender_filtered_paths_rejected_witness :
    senderEnvW.newDatasetPath "zroot" = .ok ["zroot"] ∧
    senderW.FSFilter ["zroot"] = .ok false ∧
    Sender.ListFilesystemVersions senderW senderEnvW "zroot" = (.error (.filtered "zroot"), []) ∧
    Sender.Send senderW senderEnvW { Filesystem := "zroot", From := "a", To := "b" } =
      (.error (.filtered "zroot"), []) :=
  ⟨rfl, rfl,
   (sender_filtered_paths_rejected senderW senderEnvW "zroot" [] ["zroot"] rfl rfl).1,
   (sender_filtered_paths_rejected senderW senderEnvW "zroot" [] ["zroot"] rfl rfl).2.1 "a" "b"⟩

def destroyEnvW : SenderEnv :=
  { newDatasetPath := fun s => .ok [s]
    zfsListFilesystemVersions := fun _ => .ok []
    zfsSendDry := fun _ _ _ => .ok 0
    zfsSend := fun _ _ _ => .ok 0
    zfsDestroyFilesystemVersion := fun _ v => if v.Name = "s2" then some "dataset is busy" else none
    zfsFilesystemVersion := fun v => .ok { typ := v.typ, Name := v.Name } }

def snapsW : List PduFilesystemVersion :=
  [{ typ := .Snapshot, Name := "s1" }, { typ := .Snapshot, Name := "s2" },
   { typ := .Snapshot, Name := "s3" }]

theorem destroy_snapshots_batch_witness :
    (∀ fsv ∈ snapsW, fsv.typ = VersionType.Snapshot) ∧
    isErrorResult (doDestroySnapshots destroyEnvW ["tank"] snapsW).1 = false ∧
    (resultsOf (doDestroySnapshots destroyEnvW ["tank"] snapsW).1).length = 3 ∧
    (resultsOf (doDestroySnapshots destroyEnvW ["tank"] snapsW).1).countP
      (fun r => !(r.Error == "")) = 1 ∧
    (resultsOf (doDestroySnapshots destroyEnvW ["tank"] snapsW).1).countP
      (fun r => r.Error == "") = 2 := by
  have h := (destroy_snapshots_batch destroyEnvW ["tank"] snapsW).2
    (by decide) (by decide) (by decide)
  refine ⟨by decide, h.1, ?_, ?_, ?_⟩
  · rw [h.2.1]; decide
  · rw [h.2.2.1]; decide
  · rw [h.2.2.2]; decide

/-- The pure mapping data of an endpoint.FSMap: `Map` returns the mapped
local path, `none` for "no mapping" (the nil result signalling access
denial), or an error. -/
structure FSMapData where
  map : DatasetPath → Except GoError (Option DatasetPath)

/-- endpoint.FSMap: the mapping together with the outcome of its
`Invert()` method (deterministic and side-effect-free per the spec, hence
a value rather than a stateful call). -/
structure FSMap where
  map : DatasetPath → Except GoError (Option DatasetPath)
  invertResult : Except GoError FSMapData

/-- endpoint.Receiver: the inverse map computed at construction, plus the
forward map.  The version filter only flows into backend listing calls. -/
structure Receiver where
  fsmapInv : FSMapData
  fsmap : FSMap

/-- NewReceiver from endpoint.go: invert the map eagerly, fail
construction on inversion failure.  The second component counts how often
`Invert()` was invoked during construction. -/
def NewReceiver (fsmap : FSMap) : Except GoError Receiver × Nat :=
  match fsmap.invertResult with
  | .error e => (.error e, 1)
  | .ok inv => (.ok { fsmapInv := inv, fsmap := fsmap }, 1)

/-- Claim C9: constructing a Receiver invokes the PathMap inversion
exactly once, eagerly; an inversion failure fails construction with that
error and yields no Receiver, and on success the inversion result is
stored in the Receiver. -/
theorem new_receiver_eager_invert (fsmap : FSMap) :
    (NewReceiver fsmap).2 = 1 ∧
    (∀ e, fsmap.invertResult = .error e → (NewReceiver fsmap).1 = .error e) ∧
    (∀ inv, fsmap.invertResult = .ok inv →
       (NewReceiver fsmap).1 = .ok { fsmapInv := inv, fsmap := fsmap }) := by
  refine ⟨?_, ?_, ?_⟩
  · unfold NewReceiver; cases fsmap.invertResult <;> rfl
  · intro e he; simp [NewReceiver, he]
  · intro inv hinv; simp [NewReceiver, hinv]

/-- A map whose inversion fails (e.g. a non-injective configuration). -/
def fsmapBadW : FSMap :=
  { map := fun p => .ok (some p), invertResult := .error (.msg "mapping is not invertible") }

def fsmapGoodW : FSMap :=
  { map := fun p => .ok (some p), invertResult := .ok { map := fun p => .ok (some p) } }

theorem new_receiver_eager_invert_witness :
    (NewReceiver fsmapGoodW).2 = 1 ∧
    (NewReceiver fsmapBadW).1 = .error (.msg "mapping is not invertible") :=
  ⟨(new_receiver_eager_invert fsmapGoodW).1,
   (new_receiver_eager_invert fsmapBadW).2.1 (.msg "mapping is not invertible") rfl⟩

/-- The backend invocations Receiver.Receive can perform: the
placeholder-property read (zfs.ZFSGet with ZREPL_PLACEHOLDER_PROPERTY_NAME),
placeholder creation, and the final zfs receive with its argument list. -/
inductive RCall where
  | get (p : DatasetPath)
  | createPlaceholder (p : DatasetPath)
  | recv (p : DatasetPath) (args : List String)
  deriving DecidableEq, Repr

/-- Oracle environment for the Receiver.  `zfsGet` returns the value of
the placeholder property (or fails); `zfsCreatePlaceholderFilesystem`
returns `some e` on failure; `isPlaceholder` is zfs.IsPlaceholder, a pair
whose error component the Receive code discards; `zfsRecv` is the backend
receive, `some e` on failure. -/
structure RecvEnv where
  newDatasetPath : String → Except GoError DatasetPath
  zfsGet : DatasetPath → Except GoError String
  zfsCreatePlaceholderFilesystem : DatasetPath → Option GoError
  isPlaceholder : DatasetPath → String → Bool × Option GoError
  zfsRecv : DatasetPath → List String → Option GoError

/-- The visitor closure of the tree-walk in Receiver.Receive: skip the
target itself; probe the placeholder property; interpret any probe failure
as the filesystem not existing and create a placeholder there; halt the
subtree (recording visitErr) only when that creation fails.  Returns
((visitChildTree, visitErr), backend calls). -/
def walkVisit (env : RecvEnv) (lp v : DatasetPath) :
    (Bool × Option GoError) × List RCall :=
  if v = lp then ((false, none), [])
  else
    match env.zfsGet v with
    | .error _ =>
      match env.zfsCreatePlaceholderFilesystem v with
      | some e => ((false, some e), [RCall.get v, RCall.createPlaceholder v])
      | none => ((true, none), [RCall.get v, RCall.createPlaceholder v])
    | .ok _ => ((true, none), [RCall.get v])

/-- Modelled from the spec: zfs.DatasetPathForest.WalkTopDown (package zfs
is not under src/) for the forest holding the single path lp.  Per
section 4.3 the conceptual tree of lp's ancestors is the chain of its
non-empty leading segments, root first; the visitor's boolean return
decides whether the walk descends to the next-deeper segment. -/
def walkTopDown (env : RecvEnv) (lp : DatasetPath) : List DatasetPath → Option GoError × List RCall
  | [] => (none, [])
  | v :: rest =>
    match walkVisit env lp v with
    | ((true, _), tr) =>
      let (e2, tr2) := walkTopDown env lp rest
      (e2, tr ++ tr2)
    | ((false, e), tr) => (e, tr)

/-- The chain of non-empty leading segments of lp, root first, ending in
lp itself (the forest built by f.Add(lp)). -/
def ancChain (lp : DatasetPath) : List DatasetPath :=
  (List.range lp.length).map (fun i => lp.take (i + 1))

/-- The placeholder-repair phase of Receiver.Receive: walk lp's ancestor
chain top-down with the visitor above. -/
def placeholderRepairWalk (env : RecvEnv) (lp : DatasetPath) : Option GoError × List RCall :=
  walkTopDown env lp (ancChain lp)

/-- The needForceRecv decision of Receiver.Receive: read the placeholder
property on the target itself; on success consult zfs.IsPlaceholder
(whose error component the code discards); a failed read leaves the flag
false. -/
def needForceRecv (env : RecvEnv) (lp : DatasetPath) : Bool :=
  match env.zfsGet lp with
  | .ok v => (env.isPlaceholder lp v).1
  | .error _ => false

/-- The argument list handed to zfs.ZFSRecv: -F exactly when
needForceRecv. -/
def forceArgs (env : RecvEnv) (lp : DatasetPath) : List String :=
  if needForceRecv env lp then ["-F"] else []

/-- Receiver.Receive from endpoint.go: parse, map (denying an unmapped
path), repair placeholder ancestors, decide forced receive from the
placeholder property of the target (a failed read leaves needForceRecv
false), then invoke the backend receive.  The byte stream and its
deferred Close carry no observable data here and are not modelled. -/
def Receiver.Receive (e : Receiver) (env : RecvEnv) (reqFilesystem : String) :
    Option GoError × List RCall :=
  match env.newDatasetPath reqFilesystem with
  | .error err => (some err, [])
  | .ok p =>
    match e.fsmap.map p with
    | .error err => (some err, [])
    | .ok none => (some (GoError.msg "receive to filesystem denied"), [])
    | .ok (some lp) =>
      match placeholderRepairWalk env lp with
      | (some visitErr, tr1) => (some visitErr, tr1)
      | (none, tr1) =>
        let args := forceArgs env lp
        match env.zfsRecv lp args with
        | some err => (some err, tr1 ++ [RCall.get lp, RCall.recv lp args])
        | none => (none, tr1 ++ [RCall.get lp, RCall.recv lp args])

/-- The strict ancestors of lp, root first: every non-empty leading
segment except lp itself. -/
def strictChain (lp : DatasetPath) : List DatasetPath :=
  (List.range (lp.length - 1)).map (fun i => lp.take (i + 1))

theorem mem_strictChain (lp v : DatasetPath) :
    v ∈ strictChain lp ↔ ∃ j, 0 < j ∧ j < lp.length ∧ v = lp.take j := by
  unfold strictChain
  simp only [List.mem_map, List.mem_range]
  constructor
  · rintro ⟨i, hi, rfl⟩
    exact ⟨i + 1, Nat.succ_pos i, by omega, rfl⟩
  · rintro ⟨j, hj0, hjn, rfl⟩
    exact ⟨j - 1, by omega, by congr 1; omega⟩

theorem take_ne_self (lp : DatasetPath) (j : Nat) (h : j < lp.length) : lp.take j ≠ lp := by
  intro he
  have := congrArg List.length he
  simp [List.length_take] at this
  omega

theorem take_inj_lt (lp : DatasetPath) (j j' : Nat) (hj : j ≤ lp.length) (hj' : j' ≤ lp.length)
    (h : lp.take j = lp.take j') : j = j' := by
  have := congrArg List.length h
  simp [List.length_take] at this
  omega

theorem ancChain_eq (lp : DatasetPath) (h : lp ≠ []) :
    ancChain lp = strictChain lp ++ [lp] := by
  have hpos : 0 < lp.length := List.length_pos.mpr h
  obtain ⟨n, hn⟩ : ∃ n, lp.length = n + 1 := ⟨lp.length - 1, by omega⟩
  unfold ancChain strictChain
  rw [hn]
  simp only [Nat.add_sub_cancel]
  rw [List.range_succ, List.map_append]
  simp only [List.map_cons, List.map_nil]
  congr 2
  rw [← hn, List.take_length]

theorem ancChain_split (lp : DatasetPath) (k : Nat) (hk0 : 0 < k) (hkn : k < lp.length) :
    ancChain lp =
      (List.range (k - 1)).map (fun i => lp.take (i + 1)) ++
        lp.take k :: (List.range (lp.length - k)).map (fun i => lp.take (k + i + 1)) := by
  unfold ancChain
  have h1 : lp.length = (k - 1) + ((lp.length - k) + 1) := by omega
  rw [h1, List.range_add, List.map_append, List.range_succ_eq_map]
  congr 1
  simp only [List.map_cons, List.map_map]
  have h2 : k - 1 + 0 + 1 = k := by omega
  have h3 : k - 1 + (lp.length - k + 1) - k = lp.length - k := by omega
  have h4 : ((fun i => lp.take (i + 1)) ∘ (fun x => k - 1 + x) ∘ Nat.succ) =
      (fun i => lp.take (k + i + 1)) := by
    funext i
    simp only [Function.comp]
    congr 1
    omega
  rw [h2, h3, h4]

theorem walkVisit_trace_paths (env : RecvEnv) (lp v : DatasetPath) (c : RCall)
    (h : c ∈ (walkVisit env lp v).2) :
    c = RCall.get v ∨ c = RCall.createPlaceholder v := by
  unfold walkVisit at h
  by_cases hv : v = lp
  · rw [if_pos hv] at h
    exact absurd h (List.not_mem_nil c)
  · rw [if_neg hv] at h
    cases hg : env.zfsGet v with
    | error e =>
      simp only [hg] at h
      cases hc : env.zfsCreatePlaceholderFilesystem v with
      | some e2 => simp only [hc] at h; simp at h; tauto
      | none => simp only [hc] at h; simp at h; tauto
    | ok s => simp only [hg] at h; simp at h; tauto

theorem walkVisit_continues_of_create_ok (env : RecvEnv) (lp v : DatasetPath) (hv : v ≠ lp)
    (hc : env.zfsCreatePlaceholderFilesystem v = none) :
    (walkVisit env lp v).1 = (true, none) := by
  unfold walkVisit
  rw [if_neg hv]
  cases hg : env.zfsGet v <;> simp [hc]

theorem walkVisit_create_mem (env : RecvEnv) (lp v : DatasetPath) (hv : v ≠ lp) :
    RCall.createPlaceholder v ∈ (walkVisit env lp v).2 ↔ ∃ e, env.zfsGet v = .error e := by
  unfold walkVisit
  rw [if_neg hv]
  cases hg : env.zfsGet v with
  | error e => cases hc : env.zfsCreatePlaceholderFilesystem v <;> simp [hg]
  | ok s => simp [hg]

theorem walkTopDown_append_continues (env : RecvEnv) (lp : DatasetPath) :
    ∀ ps1 ps2 : List DatasetPath,
      (∀ v ∈ ps1, (walkVisit env lp v).1 = (true, none)) →
      walkTopDown env lp (ps1 ++ ps2) =
        ((walkTopDown env lp ps2).1,
         ps1.bind (fun v => (walkVisit env lp v).2) ++ (walkTopDown env lp ps2).2) := by
  intro ps1
  induction ps1 with
  | nil => intro ps2 _; simp [walkTopDown]
  | cons v ps1 ih =>
    intro ps2 h
    have hv : walkVisit env lp v = ((true, none), (walkVisit env lp v).2) :=
      Prod.ext (h v (List.mem_cons_self v ps1)) rfl
    have ih2 := ih ps2 (fun x hx => h x (List.mem_cons_of_mem _ hx))
    simp only [List.cons_append, walkTopDown, List.append_eq]
    rw [hv, ih2]
    simp [List.append_assoc]

theorem walkTopDown_target : ∀ (env : RecvEnv) (lp : DatasetPath),
    walkTopDown env lp [lp] = (none, []) := by
  intro env lp
  simp [walkTopDown, walkVisit]

theorem receive_after_walk (e : Receiver) (env : RecvEnv) (fs : String) (p lp : DatasetPath)
    (tr1 : List RCall)
    (hp : env.newDatasetPath fs = .ok p)
    (hm : e.fsmap.map p = .ok (some lp))
    (hw : placeholderRepairWalk env lp = (none, tr1)) :
    Receiver.Receive e env fs =
      (env.zfsRecv lp (forceArgs env lp),
       tr1 ++ [RCall.get lp, RCall.recv lp (forceArgs env lp)]) := by
  unfold Receiver.Receive
  simp only [hp, hm, hw]
  cases hr : env.zfsRecv lp (forceArgs env lp) <;> simp [hr]

theorem receive_walk_error (e : Receiver) (env : RecvEnv) (fs : String) (p lp : DatasetPath)
    (tr1 : List RCall) (ve : GoError)
    (hp : env.newDatasetPath fs = .ok p)
    (hm : e.fsmap.map p = .ok (some lp))
    (hw : placeholderRepairWalk env lp = (some ve, tr1)) :
    Receiver.Receive e env fs = (some ve, tr1) := by
  unfold Receiver.Receive
  simp only [hp, hm, hw]

/-- Claim C7: with placeholder creation succeeding, the repair walk of
Receive completes without error, only probes or creates strict ancestors
of the target (so the target itself is excluded and sibling or existing
subtrees are never touched), and creates a placeholder at a strict
ancestor exactly when the placeholder-property probe there fails. -/
theorem receive_ancestor_repair (env : RecvEnv) (lp : DatasetPath) (hlp : lp ≠ [])
    (hcreate : ∀ v, env.zfsCreatePlaceholderFilesystem v = none) :
    (placeholderRepairWalk env lp).1 = none ∧
    (∀ c ∈ (placeholderRepairWalk env lp).2,
       ∃ j, 0 < j ∧ j < lp.length ∧
         (c = RCall.get (lp.take j) ∨ c = RCall.createPlaceholder (lp.take j))) ∧
    (RCall.get lp ∉ (placeholderRepairWalk env lp).2 ∧
     RCall.createPlaceholder lp ∉ (placeholderRepairWalk env lp).2) ∧
    (∀ j, 0 < j → j < lp.length →
       (RCall.createPlaceholder (lp.take j) ∈ (placeholderRepairWalk env lp).2 ↔
        ∃ er, env.zfsGet (lp.take j) = .error er)) := by
  have hcont : ∀ v ∈ strictChain lp, (walkVisit env lp v).1 = (true, none) := by
    intro v hv
    obtain ⟨j, hj0, hjn, rfl⟩ := (mem_strictChain lp v).mp hv
    exact walkVisit_continues_of_create_ok env lp _ (take_ne_self lp j hjn) (hcreate _)
  have hw : placeholderRepairWalk env lp =
      (none, (strictChain lp).bind (fun v => (walkVisit env lp v).2)) := by
    unfold placeholderRepairWalk
    rw [ancChain_eq lp hlp, walkTopDown_append_continues env lp _ _ hcont, walkTopDown_target]
    simp
  have hw1 : (placeholderRepairWalk env lp).1 = none := by rw [hw]
  have hw2 : (placeholderRepairWalk env lp).2 =
      (strictChain lp).bind (fun v => (walkVisit env lp v).2) := by rw [hw]
  have h2 : ∀ c ∈ (placeholderRepairWalk env lp).2,
      ∃ j, 0 < j ∧ j < lp.length ∧
        (c = RCall.get (lp.take j) ∨ c = RCall.createPlaceholder (lp.take j)) := by
    intro c hc
    rw [hw2] at hc
    obtain ⟨v, hv, hcv⟩ := List.mem_bind.mp hc
    obtain ⟨j, hj0, hjn, rfl⟩ := (mem_strictChain lp v).mp hv
    rcases walkVisit_trace_paths env lp _ c hcv with h | h
    · exact ⟨j, hj0, hjn, Or.inl h⟩
    · exact ⟨j, hj0, hjn, Or.inr h⟩
  refine ⟨hw1, h2, ⟨?_, ?_⟩, ?_⟩
  · intro hmem
    obtain ⟨j, hj0, hjn, hor⟩ := h2 _ hmem
    rcases hor with h | h
    · injection h with h3
      exact take_ne_self lp j hjn h3.symm
    · exact RCall.noConfusion h
  · intro hmem
    obtain ⟨j, hj0, hjn, hor⟩ := h2 _ hmem
    rcases hor with h | h
    · exact RCall.noConfusion h
    · injection h with h3
      exact take_ne_self lp j hjn h3.symm
  · intro j hj0 hjn
    constructor
    · intro hmem
      rw [hw2] at hmem
      obtain ⟨v, hv, hcv⟩ := List.mem_bind.mp hmem
      obtain ⟨j', hj'0, hj'n, rfl⟩ := (mem_strictChain lp v).mp hv
      rcases walkVisit_trace_paths env lp _ _ hcv with h | h
      · exact RCall.noConfusion h
      · injection h with h3
        rw [h3]
        exact (walkVisit_create_mem env lp _ (take_ne_self lp j' hj'n)).mp (h3 ▸ hcv)
    · rintro ⟨er, her⟩
      rw [hw2]
      apply List.mem_bind.mpr
      exact ⟨lp.take j, (mem_strictChain lp _).mpr ⟨j, hj0, hjn, rfl⟩,
        (walkVisit_create_mem env lp _ (take_ne_self lp j hjn)).mpr ⟨er, her⟩⟩

/-- A receiver whose path map is the identity (every path mapped). -/
def receiverW : Receiver :=
  { fsmapInv := { map := fun q => .ok (some q) },
    fsmap := { map := fun q => .ok (some q),
               invertResult := .ok { map := fun q => .ok (some q) } } }

/-- Environment in which the target's parent and grandparent are missing
(the probe fails there) while every other probe succeeds. -/
def recvEnvW7 : RecvEnv :=
  { newDatasetPath := fun s =>
      if s = "tank/a/b" then .ok ["tank", "a", "b"] else .error (.msg "invalid filesystem path")
    zfsGet := fun v =>
      if v = ["tank"] ∨ v = ["tank", "a"] then .error (.msg "exit status 1") else .ok "off"
    zfsCreatePlaceholderFilesystem := fun _ => none
    isPlaceholder := fun _ v => (v == "on", none)
    zfsRecv := fun _ _ => none }

theorem receive_ancestor_repair_witness :
    (placeholderRepairWalk recvEnvW7 ["tank", "a", "b"]).1 = none ∧
    RCall.createPlaceholder ["tank"] ∈ (placeholderRepairWalk recvEnvW7 ["tank", "a", "b"]).2 ∧
    RCall.createPlaceholder ["tank", "a"] ∈
      (placeholderRepairWalk recvEnvW7 ["tank", "a", "b"]).2 ∧
    RCall.createPlaceholder ["tank", "a", "b"] ∉
      (placeholderRepairWalk recvEnvW7 ["tank", "a", "b"]).2 := by
  have h := receive_ancestor_repair recvEnvW7 ["tank", "a", "b"] (by decide) (fun v => rfl)
  refine ⟨h.1, ?_, ?_, h.2.2.1.2⟩
  · exact (h.2.2.2 1 (by decide) (by decide)).mpr ⟨.msg "exit status 1", by decide⟩
  · exact (h.2.2.2 2 (by decide) (by decide)).mpr ⟨.msg "exit status 1", by decide⟩

/-- Claim C3: after a clean repair walk, Receive invokes the backend
receive with -F exactly when the placeholder-property read on the target
succeeds and zfs.IsPlaceholder affirms it; any target not so marked is
received without the force directive. -/
theorem receive_force_iff_placeholder (e : Receiver) (env : RecvEnv) (fs : String)
    (p lp : DatasetPath) (tr1 : List RCall)
    (hp : env.newDatasetPath fs = .ok p)
    (hm : e.fsmap.map p = .ok (some lp))
    (hw : placeholderRepairWalk env lp = (none, tr1)) :
    ((∃ v, env.zfsGet lp = .ok v ∧ (env.isPlaceholder lp v).1 = true) →
       RCall.recv lp ["-F"] ∈ (Receiver.Receive e env fs).2) ∧
    ((∀ v, env.zfsGet lp = .ok v → (env.isPlaceholder lp v).1 = false) →
       RCall.recv lp [] ∈ (Receiver.Receive e env fs).2) := by
  rw [receive_after_walk e env fs p lp tr1 hp hm hw]
  constructor
  · rintro ⟨v, hv, hpl⟩
    have hf : forceArgs env lp = ["-F"] := by simp [forceArgs, needForceRecv, hv, hpl]
    rw [hf]
    simp
  · intro hnone
    have hn : needForceRecv env lp = false := by
      unfold needForceRecv
      cases hg : env.zfsGet lp with
      | ok v => exact hnone v hg
      | error e2 => rfl
    have hf : forceArgs env lp = [] := by simp [forceArgs, hn]
    rw [hf]
    simp

/-- Environment in which the target carries the placeholder marker. -/
def recvEnvW3 : RecvEnv :=
  { newDatasetPath := fun s =>
      if s = "tank/a" then .ok ["tank", "a"] else .error (.msg "invalid filesystem path")
    zfsGet := fun _ => .ok "on"
    zfsCreatePlaceholderFilesystem := fun _ => none
    isPlaceholder := fun _ v => (v == "on", none)
    zfsRecv := fun _ _ => none }

theorem receive_force_iff_placeholder_witness :
    placeholderRepairWalk recvEnvW3 ["tank", "a"] = (none, [RCall.get ["tank"]]) ∧
    RCall.recv ["tank", "a"] ["-F"] ∈ (Receiver.Receive receiverW recvEnvW3 "tank/a").2 := by
  have h := receive_force_iff_placeholder receiverW recvEnvW3 "tank/a" ["tank", "a"]
    ["tank", "a"] [RCall.get ["tank"]] (by decide) (by decide) (by decide)
  exact ⟨by decide, h.1 ⟨"on", by decide, by decide⟩⟩

/-- Claim C8 (implicit behavior): when the placeholder-property read on
the target itself fails, Receive swallows that failure, proceeds without
the force directive, and its outcome is exactly that of the unforced
backend receive. -/
theorem receive_target_probe_failure_no_force (e : Receiver) (env : RecvEnv) (fs : String)
    (p lp : DatasetPath) (tr1 : List RCall) (er : GoError)
    (hp : env.newDatasetPath fs = .ok p)
    (hm : e.fsmap.map p = .ok (some lp))
    (hw : placeholderRepairWalk env lp = (none, tr1))
    (hget : env.zfsGet lp = .error er) :
    (Receiver.Receive e env fs).1 = env.zfsRecv lp [] ∧
    RCall.recv lp [] ∈ (Receiver.Receive e env fs).2 := by
  have hargs : forceArgs env lp = [] := by simp [forceArgs, needForceRecv, hget]
  rw [receive_after_walk e env fs p lp tr1 hp hm hw, hargs]
  exact ⟨rfl, by simp⟩

/-- Environment in which the probe on the target itself fails while the
single strict ancestor exists. -/
def recvEnvW8 : RecvEnv :=
  { newDatasetPath := fun s =>
      if s = "tank/a" then .ok ["tank", "a"] else .error (.msg "invalid filesystem path")
    zfsGet := fun v => if v = ["tank"] then .ok "off" else .error (.msg "exit status 1")
    zfsCreatePlaceholderFilesystem := fun _ => none
    isPlaceholder := fun _ v => (v == "on", none)
    zfsRecv := fun _ _ => none }

theorem receive_target_probe_failure_no_force_witness :
    (Receiver.Receive receiverW recvEnvW8 "tank/a").1 = none ∧
    RCall.recv ["tank", "a"] [] ∈ (Receiver.Receive receiverW recvEnvW8 "tank/a").2 := by
  have h := receive_target_probe_failure_no_force receiverW recvEnvW8 "tank/a"
    ["tank", "a"] ["tank", "a"] [RCall.get ["tank"]] (.msg "exit status 1")
    (by decide) (by decide) (by decide) (by decide)
  exact ⟨h.1.trans (by decide), h.2⟩

/-- Environment whose probe on the ancestor "tank" fails with an
I/O-style backend error - an outcome plainly not consistent with the
filesystem being absent - while placeholder creation and everything else
succeeds. -/
def recvEnvC1 : RecvEnv :=
  { newDatasetPath := fun s =>
      if s = "tank/a" then .ok ["tank", "a"] else .error (.msg "invalid filesystem path")
    zfsGet := fun v =>
      if v = ["tank"] then .error (.msg "io error: pool suspended") else .ok "off"
    zfsCreatePlaceholderFilesystem := fun _ => none
    isPlaceholder := fun _ v => (v == "on", none)
    zfsRecv := fun _ _ => none }

/-- Claim C1, counterexample: the ancestor probe fails with an I/O-style
error that does not signal absence, yet Receive neither halts nor returns
that error - it succeeds and creates a placeholder at the ancestor,
because the code classifies every probe failure as "does not exist". -/
theorem receive_probe_error_swallowed_cex :
    (Receiver.Receive receiverW recvEnvC1 "tank/a").1 ≠
      some (GoError.msg "io error: pool suspended") ∧
    (Receiver.Receive receiverW recvEnvC1 "tank/a").1 = none ∧
    RCall.createPlaceholder ["tank"] ∈ (Receiver.Receive receiverW recvEnvC1 "tank/a").2 := by
  decide

/-- Claim C1 (amended): in the ancestor-repair walk every probe failure,
of whatever kind, is interpreted as the filesystem not existing and
answered by creating a placeholder there; the walk halts immediately and
the error is returned as the Receive error only when that placeholder
creation itself fails, in which case no deeper ancestor is probed. -/
theorem receive_probe_failure_treated_as_absent (e : Receiver) (env : RecvEnv) (fs : String)
    (p lp : DatasetPath) (k : Nat) (er : GoError)
    (hp : env.newDatasetPath fs = .ok p)
    (hm : e.fsmap.map p = .ok (some lp))
    (hk0 : 0 < k) (hkn : k < lp.length)
    (hprev : ∀ j, 0 < j → j < k → (walkVisit env lp (lp.take j)).1 = (true, none))
    (hget : env.zfsGet (lp.take k) = .error er) :
    RCall.createPlaceholder (lp.take k) ∈ (Receiver.Receive e env fs).2 ∧
    ∀ ce, env.zfsCreatePlaceholderFilesystem (lp.take k) = some ce →
      (Receiver.Receive e env fs).1 = some ce ∧
      ∀ j, k < j → j < lp.length →
        RCall.get (lp.take j) ∉ (Receiver.Receive e env fs).2 := by
  have hsplit := ancChain_split lp k hk0 hkn
  have hkne : lp.take k ≠ lp := take_ne_self lp k hkn
  have hcontA : ∀ v ∈ (List.range (k - 1)).map (fun i => lp.take (i + 1)),
      (walkVisit env lp v).1 = (true, none) := by
    intro v hv
    simp only [List.mem_map, List.mem_range] at hv
    obtain ⟨i, hi, rfl⟩ := hv
    exact hprev (i + 1) (Nat.succ_pos i) (by omega)
  have happ := walkTopDown_append_continues env lp
    ((List.range (k - 1)).map (fun i => lp.take (i + 1)))
    (lp.take k :: (List.range (lp.length - k)).map (fun i => lp.take (k + i + 1))) hcontA
  have hgets : ∀ c ∈ ((List.range (k - 1)).map (fun i => lp.take (i + 1))).bind
      (fun v => (walkVisit env lp v).2),
      ∃ j, 0 < j ∧ j < k ∧
        (c = RCall.get (lp.take j) ∨ c = RCall.createPlaceholder (lp.take j)) := by
    intro c hc
    obtain ⟨v, hv, hcv⟩ := List.mem_bind.mp hc
    simp only [List.mem_map, List.mem_range] at hv
    obtain ⟨i, hi, rfl⟩ := hv
    rcases walkVisit_trace_paths env lp _ c hcv with h | h
    · exact ⟨i + 1, Nat.succ_pos i, by omega, Or.inl h⟩
    · exact ⟨i + 1, Nat.succ_pos i, by omega, Or.inr h⟩
  cases hc : env.zfsCreatePlaceholderFilesystem (lp.take k) with
  | some ce' =>
    have hvisit : walkVisit env lp (lp.take k) =
        ((false, some ce'), [RCall.get (lp.take k), RCall.createPlaceholder (lp.take k)]) := by
      unfold walkVisit
      rw [if_neg hkne]
      simp [hget, hc]
    have hwalkhead : walkTopDown env lp
        (lp.take k :: (List.range (lp.length - k)).map (fun i => lp.take (k + i + 1))) =
        (some ce', [RCall.get (lp.take k), RCall.createPlaceholder (lp.take k)]) := by
      simp only [walkTopDown, hvisit]
    have hw : placeholderRepairWalk env lp =
        (some ce',
         ((List.range (k - 1)).map (fun i => lp.take (i + 1))).bind
             (fun v => (walkVisit env lp v).2) ++
           [RCall.get (lp.take k), RCall.createPlaceholder (lp.take k)]) := by
      unfold placeholderRepairWalk
      rw [hsplit, happ, hwalkhead]
    have hrec := receive_walk_error e env fs p lp _ ce' hp hm hw
    constructor
    · rw [hrec]
      simp
    · intro ce hce
      have hceq : ce' = ce := by injection hce
      subst hceq
      refine ⟨by rw [hrec], ?_⟩
      intro j hjk hjn hmem
      rw [hrec] at hmem
      rcases List.mem_append.mp hmem with h | h
      · obtain ⟨j', hj'0, hj'k, hor⟩ := hgets _ h
        rcases hor with h2 | h2
        · injection h2 with h3
          have := take_inj_lt lp j j' (le_of_lt hjn) (by omega) h3
          omega
        · exact RCall.noConfusion h2
      · simp only [List.mem_cons, List.mem_singleton] at h
        rcases h with h | h | h
        · injection h with h3
          have := take_inj_lt lp j k (le_of_lt hjn) (le_of_lt hkn) h3
          omega
        · exact RCall.noConfusion h
        · exact absurd h (List.not_mem_nil _)
  | none =>
    have hvisit : walkVisit env lp (lp.take k) =
        ((true, none), [RCall.get (lp.take k), RCall.createPlaceholder (lp.take k)]) := by
      unfold walkVisit
      rw [if_neg hkne]
      simp [hget, hc]
    have hwalkhead : walkTopDown env lp
        (lp.take k :: (List.range (lp.length - k)).map (fun i => lp.take (k + i + 1))) =
        ((walkTopDown env lp
            ((List.range (lp.length - k)).map (fun i => lp.take (k + i + 1)))).1,
         [RCall.get (lp.take k), RCall.createPlaceholder (lp.take k)] ++
           (walkTopDown env lp
             ((List.range (lp.length - k)).map (fun i => lp.take (k + i + 1)))).2) := by
      simp only [walkTopDown, hvisit]
    have hw : placeholderRepairWalk env lp =
        ((walkTopDown env lp
            ((List.range (lp.length - k)).map (fun i => lp.take (k + i + 1)))).1,
         ((List.range (k - 1)).map (fun i => lp.take (i + 1))).bind
             (fun v => (walkVisit env lp v).2) ++
           ([RCall.get (lp.take k), RCall.createPlaceholder (lp.take k)] ++
             (walkTopDown env lp
               ((List.range (lp.length - k)).map (fun i => lp.take (k + i + 1)))).2)) := by
      unfold placeholderRepairWalk
      rw [hsplit, happ, hwalkhead]
    constructor
    · cases hwres : (walkTopDown env lp
          ((List.range (lp.length - k)).map (fun i => lp.take (k + i + 1)))).1 with
      | some ve =>
        have hw' := hw
        rw [hwres] at hw'
        have hrec := receive_walk_error e env fs p lp _ ve hp hm hw'
        rw [hrec]
        simp
      | none =>
        have hw' := hw
        rw [hwres] at hw'
        have hrec := receive_after_walk e env fs p lp _ hp hm hw'
        rw [hrec]
        simp
    · intro ce hce
      exact Option.noConfusion hce

/-- Environment in which the ancestor probe fails with an I/O-style error
and the placeholder creation there also fails. -/
def recvEnvC1w : RecvEnv :=
  { newDatasetPath := fun s =>
      if s = "tank/a" then .ok ["tank", "a"] else .error (.msg "invalid filesystem path")
    zfsGet := fun v =>
      if v = ["tank"] then .error (.msg "io error: pool suspended") else .ok "off"
    zfsCreatePlaceholderFilesystem := fun v =>
      if v = ["tank"] then some (.msg "cannot create placeholder filesystem") else none
    isPlaceholder := fun _ v => (v == "on", none)
    zfsRecv := fun _ _ => none }

theorem receive_probe_failure_treated_as_absent_witness :
    RCall.createPlaceholder ["tank"] ∈ (Receiver.Receive receiverW recvEnvC1w "tank/a").2 ∧
    (Receiver.Receive receiverW recvEnvC1w "tank/a").1 =
      some (.msg "cannot create placeholder filesystem") := by
  have h := receive_probe_failure_treated_as_absent receiverW recvEnvC1w "tank/a"
    ["tank", "a"] ["tank", "a"] 1 (.msg "io error: pool suspended")
    (by decide) (by decide) (by decide) (by decide)
    (fun j hj0 hj1 => by omega) (by decide)
  exact ⟨h.1, (h.2 (.msg "cannot create placeholder filesystem") (by decide)).1⟩

/-- The wire call names of endpoint.go. -/
def RPCListFilesystems : String := "ListFilesystems"

def RPCListFilesystemVersions : String := "ListFilesystemVersions"

def RPCReceive : String := "Receive"

def RPCSend : String := "Send"

def RPCSDestroySnapshots : String := "DestroySnapshots"

def RPCSnapshotReplicationStatus : String := "SnapshotReplicationStatus"

/-- Structured payloads are opaque byte strings. -/
abbrev Bytes := List Nat

/-- pdu.Filesystem (only the Path field is populated by endpoint.go). -/
structure PduFilesystem where
  Path : String
  deriving DecidableEq, Repr

/-- pdu.ReceiveReq (the field endpoint.go reads). -/
structure ReceiveReq where
  Filesystem : String
  deriving DecidableEq, Repr

/-- pdu.DestroySnapshotsReq. -/
structure DestroySnapshotsReq where
  Filesystem : String
  Snapshots : List PduFilesystemVersion
  deriving DecidableEq, Repr

/-- pdu.SnapshotReplicationStatusReq, kept abstract: the dispatcher only
forwards it. -/
structure SnapshotReplicationStatusReq where
  tag : Nat
  deriving DecidableEq, Repr

/-- pdu.SnapshotReplicationStatusRes. -/
structure SnapshotReplicationStatusRes where
  Replicated : Bool
  deriving DecidableEq, Repr

/-- The local replication.Endpoint a Handler is bound to: its capability
set (whether the Go type assertions to replication.Sender and
replication.Receiver succeed) and the outcomes of its operations.  The
sender-only and receiver-only operations are reachable only behind the
corresponding capability check, mirroring the type assertions. -/
structure EndpointOps where
  isSender : Bool
  isReceiver : Bool
  ListFilesystems : Except GoError (List PduFilesystem)
  ListFilesystemVersions : String → Except GoError (List PduFilesystemVersion)
  Send : SendReq → Except GoError (SendRes × Nat)
  Receive : ReceiveReq → Option Nat → Option GoError
  DestroySnapshots : DestroySnapshotsReq → Except GoError DestroySnapshotsRes
  SnapshotReplicationStatus :
    SnapshotReplicationStatusReq → Except GoError SnapshotReplicationStatusRes

/-- The protobuf codec as seen by the dispatcher. -/
structure HandleEnv where
  unmarshalListFilesystemReq : Bytes → Except GoError Unit
  unmarshalListFilesystemVersionsReq : Bytes → Except GoError String
  unmarshalSendReq : Bytes → Except GoError SendReq
  unmarshalReceiveReq : Bytes → Except GoError ReceiveReq
  unmarshalDestroySnapshotsReq : Bytes → Except GoError DestroySnapshotsReq
  unmarshalSnapshotReplicationStatusReq :
    Bytes → Except GoError SnapshotReplicationStatusReq
  marshalListFilesystemRes : List PduFilesystem → Except GoError Bytes
  marshalListFilesystemVersionsRes : List PduFilesystemVersion → Except GoError Bytes
  marshalSendRes : SendRes → Except GoError Bytes
  marshalReceiveRes : Except GoError Bytes
  marshalDestroySnapshotsRes : DestroySnapshotsRes → Except GoError Bytes
  marshalSnapshotReplicationStatusRes :
    SnapshotReplicationStatusRes → Except GoError Bytes

/-- The single shared error of the dispatcher's Err label. -/
def noHandlerError : GoError := GoError.msg "no handler for given endpoint"

/-- Handler.Handle from endpoint.go: dispatch on the call name; the Send
and SnapshotReplicationStatus arms require the sender capability, the
Receive arm the receiver capability, and a failed capability assertion
jumps to the same Err label that an unknown call name falls through to. -/
def Handler.Handle (env : HandleEnv) (ep : EndpointOps) (endpoint : String)
    (reqStructured : Bytes) (reqStream : Option Nat) :
    Except GoError (Bytes × Option Nat) :=
  if endpoint = RPCListFilesystems then
    match env.unmarshalListFilesystemReq reqStructured with
    | .error e => .error e
    | .ok _ =>
      match ep.ListFilesystems with
      | .error e => .error e
      | .ok fsses =>
        match env.marshalListFilesystemRes fsses with
        | .error e => .error e
        | .ok b => .ok (b, none)
  else if endpoint = RPCListFilesystemVersions then
    match env.unmarshalListFilesystemVersionsReq reqStructured with
    | .error e => .error e
    | .ok fs =>
      match ep.ListFilesystemVersions fs with
      | .error e => .error e
      | .ok fsvs =>
        match env.marshalListFilesystemVersionsRes fsvs with
        | .error e => .error e
        | .ok b => .ok (b, none)
  else if endpoint = RPCSend then
    if ep.isSender = false then .error noHandlerError
    else
      match env.unmarshalSendReq reqStructured with
      | .error e => .error e
      | .ok req =>
        match ep.Send req with
        | .error e => .error e
        | .ok (res, sendStream) =>
          match env.marshalSendRes res with
          | .error e => .error e
          | .ok b => .ok (b, some sendStream)
  else if endpoint = RPCReceive then
    if ep.isReceiver = false then .error noHandlerError
    else
      match env.unmarshalReceiveReq reqStructured with
      | .error e => .error e
      | .ok req =>
        match ep.Receive req reqStream with
        | some e => .error e
        | none =>
          match env.marshalReceiveRes with
          | .error e => .error e
          | .ok b => .ok (b, none)
  else if endpoint = RPCSDestroySnapshots then
    match env.unmarshalDestroySnapshotsReq reqStructured with
    | .error e => .error e
    | .ok req =>
      match ep.DestroySnapshots req with
      | .error e => .error e
      | .ok res =>
        match env.marshalDestroySnapshotsRes res with
        | .error e => .error e
        | .ok b => .ok (b, none)
  else if endpoint = RPCSnapshotReplicationStatus then
    if ep.isSender = false then .error noHandlerError
    else
      match env.unmarshalSnapshotReplicationStatusReq reqStructured with
      | .error e => .error e
      | .ok req =>
        match ep.SnapshotReplicationStatus req with
        | .error e => .error e
        | .ok res =>
          match env.marshalSnapshotReplicationStatusRes res with
          | .error e => .error e
          | .ok b => .ok (b, none)
  else .error noHandlerError

/-- Claim C5: Send and SnapshotReplicationStatus without sender
capability, Receive without receiver capability, and an unknown call name
are all answered with the one generic noHandlerError value, leaking
nothing about which capability was missing. -/
theorem handler_capability_no_handler (env : HandleEnv) (ep : EndpointOps)
    (endpoint : String) (b : Bytes) (st : Option Nat) :
    ((endpoint = RPCSend ∨ endpoint = RPCSnapshotReplicationStatus) → ep.isSender = false →
       Handler.Handle env ep endpoint b st = .error noHandlerError) ∧
    (endpoint = RPCReceive → ep.isReceiver = false →
       Handler.Handle env ep endpoint b st = .error noHandlerError) ∧
    (endpoint ∉ [RPCListFilesystems, RPCListFilesystemVersions, RPCReceive, RPCSend,
        RPCSDestroySnapshots, RPCSnapshotReplicationStatus] →
       Handler.Handle env ep endpoint b st = .error noHandlerError) := by
  refine ⟨?_, ?_, ?_⟩
  · rintro (rfl | rfl) hs <;>
      simp [Handler.Handle, hs, RPCListFilesystems, RPCListFilesystemVersions, RPCSend,
        RPCReceive, RPCSDestroySnapshots, RPCSnapshotReplicationStatus]
  · rintro rfl hr
    simp [Handler.Handle, hr, RPCListFilesystems, RPCListFilesystemVersions, RPCSend,
      RPCReceive, RPCSDestroySnapshots, RPCSnapshotReplicationStatus]
  · intro hnot
    simp only [List.mem_cons, List.mem_singleton, not_or] at hnot
    obtain ⟨h1, h2, h3, h4, h5, h6⟩ := hnot
    simp [Handler.Handle, h1, h2, h3, h4, h5, h6]

/-- An endpoint with neither capability and inert operations. -/
def epNoneW : EndpointOps :=
  { isSender := false
    isReceiver := false
    ListFilesystems := .ok []
    ListFilesystemVersions := fun _ => .ok []
    Send := fun _ => .error noHandlerError
    Receive := fun _ _ => none
    DestroySnapshots := fun _ => .ok { Results := [] }
    SnapshotReplicationStatus := fun _ => .ok { Replicated := false } }

/-- A trivial codec for the dispatcher witness. -/
def handleEnvW : HandleEnv :=
  { unmarshalListFilesystemReq := fun _ => .ok ()
    unmarshalListFilesystemVersionsReq := fun _ => .ok ""
    unmarshalSendReq := fun _ => .ok { Filesystem := "", From := "", To := "" }
    unmarshalReceiveReq := fun _ => .ok { Filesystem := "" }
    unmarshalDestroySnapshotsReq := fun _ => .ok { Filesystem := "", Snapshots := [] }
    unmarshalSnapshotReplicationStatusReq := fun _ => .ok { tag := 0 }
    marshalListFilesystemRes := fun _ => .ok []
    marshalListFilesystemVersionsRes := fun _ => .ok []
    marshalSendRes := fun _ => .ok []
    marshalReceiveRes := .ok []
    marshalDestroySnapshotsRes := fun _ => .ok []
    marshalSnapshotReplicationStatusRes := fun _ => .ok [] }

theorem handler_capability_no_handler_witness :
    Handler.Handle handleEnvW epNoneW RPCSend [] none = .error noHandlerError ∧
    Handler.Handle handleEnvW epNoneW RPCSnapshotReplicationStatus [] none =
      .error noHandlerError ∧
    Handler.Handle handleEnvW epNoneW RPCReceive [] none = .error noHandlerError ∧
    Handler.Handle handleEnvW epNoneW "Bogus" [] none = .error noHandlerError :=
  ⟨(handler_capability_no_handler handleEnvW epNoneW RPCSend [] none).1 (Or.inl rfl) rfl,
   (handler_capability_no_handler handleEnvW epNoneW RPCSnapshotReplicationStatus [] none).1
     (Or.inr rfl) rfl,
   (handler_capability_no_handler handleEnvW epNoneW RPCReceive [] none).2.1 rfl rfl,
   (handler_capability_no_handler handleEnvW epNoneW "Bogus" [] none).2.2 (by decide)⟩

/-- Client-side observable actions: issuing a wire call via
streamrpc RequestReply, and closing a byte stream. -/
inductive CAction where
  | call (endpoint : String)
  | closeStream (s : Nat)
  deriving DecidableEq, Repr

/-- The transport and codec as seen by the client stub Remote.
RequestReply yields the structured reply plus an optional reply stream;
unmarshal failures come from the proto library and are wrapped as decode
errors by the stub model. -/
structure ClientEnv where
  requestReply : String → Bytes → Option Nat → Except GoError (Bytes × Option Nat)
  marshalListFilesystemReq : Except GoError Bytes
  marshalListFilesystemVersionsReq : String → Except GoError Bytes
  marshalSendReq : SendReq → Except GoError Bytes
  marshalReceiveReq : ReceiveReq → Except GoError Bytes
  marshalDestroySnapshotsReq : DestroySnapshotsReq → Except GoError Bytes
  unmarshalListFilesystemRes : Bytes → Except String (List PduFilesystem)
  unmarshalListFilesystemVersionsRes : Bytes → Except String (List PduFilesystemVersion)
  unmarshalSendRes : Bytes → Except String SendRes
  unmarshalReceiveRes : Bytes → Except String Unit
  unmarshalDestroySnapshotsRes : Bytes → Except String DestroySnapshotsRes

/-- Remote.ListFilesystems from endpoint.go: marshal, one RequestReply
with no request stream; a reply stream is closed and answered with the
unexpected-stream protocol error; then decode. -/
def Remote.ListFilesystems (env : ClientEnv) :
    Except GoError (List PduFilesystem) × List CAction :=
  match env.marshalListFilesystemReq with
  | .error e => (.error e, [])
  | .ok b =>
    match env.requestReply RPCListFilesystems b none with
    | .error e => (.error e, [CAction.call RPCListFilesystems])
    | .ok (rb, some rs) =>
      (.error (.msg "response contains unexpected stream"),
       [CAction.call RPCListFilesystems, CAction.closeStream rs])
    | .ok (rb, none) =>
      match env.unmarshalListFilesystemRes rb with
      | .error s => (.error (.decode s), [CAction.call RPCListFilesystems])
      | .ok res => (.ok res, [CAction.call RPCListFilesystems])

/-- Remote.ListFilesystemVersions from endpoint.go. -/
def Remote.ListFilesystemVersions (env : ClientEnv) (fs : String) :
    Except GoError (List PduFilesystemVersion) × List CAction :=
  match env.marshalListFilesystemVersionsReq fs with
  | .error e => (.error e, [])
  | .ok b =>
    match env.requestReply RPCListFilesystemVersions b none with
    | .error e => (.error e, [CAction.call RPCListFilesystemVersions])
    | .ok (rb, some rs) =>
      (.error (.msg "response contains unexpected stream"),
       [CAction.call RPCListFilesystemVersions, CAction.closeStream rs])
    | .ok (rb, none) =>
      match env.unmarshalListFilesystemVersionsRes rb with
      | .error s => (.error (.decode s), [CAction.call RPCListFilesystemVersions])
      | .ok res => (.ok res, [CAction.call RPCListFilesystemVersions])

/-- Remote.Send from endpoint.go: a reply without a stream is the
missing-stream protocol error; a decode failure closes the reply stream. -/
def Remote.Send (env : ClientEnv) (r : SendReq) :
    Except GoError (SendRes × Nat) × List CAction :=
  match env.marshalSendReq r with
  | .error e => (.error e, [])
  | .ok b =>
    match env.requestReply RPCSend b none with
    | .error e => (.error e, [CAction.call RPCSend])
    | .ok (rb, none) =>
      (.error (.msg "response does not contain a stream"), [CAction.call RPCSend])
    | .ok (rb, some rs) =>
      match env.unmarshalSendRes rb with
      | .error s => (.error (.decode s), [CAction.call RPCSend, CAction.closeStream rs])
      | .ok res => (.ok (res, rs), [CAction.call RPCSend])

/-- Remote.Receive from endpoint.go: the request carries the send stream;
the deferred Close of that stream runs on every exit path, last. -/
def Remote.Receive (env : ClientEnv) (r : ReceiveReq) (sendStream : Nat) :
    Option GoError × List CAction :=
  match env.marshalReceiveReq r with
  | .error e => (some e, [CAction.closeStream sendStream])
  | .ok b =>
    match env.requestReply RPCReceive b (some sendStream) with
    | .error e => (some e, [CAction.call RPCReceive, CAction.closeStream sendStream])
    | .ok (rb, some rs) =>
      (some (.msg "response contains unexpected stream"),
       [CAction.call RPCReceive, CAction.closeStream rs, CAction.closeStream sendStream])
    | .ok (rb, none) =>
      match env.unmarshalReceiveRes rb with
      | .error s =>
        (some (.decode s), [CAction.call RPCReceive, CAction.closeStream sendStream])
      | .ok _ => (none, [CAction.call RPCReceive, CAction.closeStream sendStream])

/-- Remote.DestroySnapshots from endpoint.go. -/
def Remote.DestroySnapshots (env : ClientEnv) (r : DestroySnapshotsReq) :
    Except GoError DestroySnapshotsRes × List CAction :=
  match env.marshalDestroySnapshotsReq r with
  | .error e => (.error e, [])
  | .ok b =>
    match env.requestReply RPCSDestroySnapshots b none with
    | .error e => (.error e, [CAction.call RPCSDestroySnapshots])
    | .ok (rb, some rs) =>
      (.error (.msg "response contains unexpected stream"),
       [CAction.call RPCSDestroySnapshots, CAction.closeStream rs])
    | .ok (rb, none) =>
      match env.unmarshalDestroySnapshotsRes rb with
      | .error s => (.error (.decode s), [CAction.call RPCSDestroySnapshots])
      | .ok res => (.ok res, [CAction.call RPCSDestroySnapshots])

/-- How many wire calls a stub action trace contains. -/
def countCalls (tr : List CAction) : Nat :=
  tr.countP (fun a => match a with | CAction.call _ => true | _ => false)

/-- Claim C6: a Send reply without a stream fails with the missing-stream
protocol error (never a decode error); a reply stream on any of the four
no-stream calls is closed and the call fails with the unexpected-stream
protocol error (never a decode error); in each case exactly one wire call
was issued, so the failure is not retried by this layer. -/
theorem remote_stream_shape_protocol (env : ClientEnv) :
    (∀ r b rb, env.marshalSendReq r = .ok b →
       env.requestReply RPCSend b none = .ok (rb, none) →
       (Remote.Send env r).1 = .error (.msg "response does not contain a stream") ∧
       (∀ s, (Remote.Send env r).1 ≠ .error (.decode s)) ∧
       countCalls (Remote.Send env r).2 = 1) ∧
    (∀ b rb rs, env.marshalListFilesystemReq = .ok b →
       env.requestReply RPCListFilesystems b none = .ok (rb, some rs) →
       (Remote.ListFilesystems env).1 = .error (.msg "response contains unexpected stream") ∧
       (∀ s, (Remote.ListFilesystems env).1 ≠ .error (.decode s)) ∧
       CAction.closeStream rs ∈ (Remote.ListFilesystems env).2 ∧
       countCalls (Remote.ListFilesystems env).2 = 1) ∧
    (∀ fs b rb rs, env.marshalListFilesystemVersionsReq fs = .ok b →
       env.requestReply RPCListFilesystemVersions b none = .ok (rb, some rs) →
       (Remote.ListFilesystemVersions env fs).1 =
         .error (.msg "response contains unexpected stream") ∧
       CAction.closeStream rs ∈ (Remote.ListFilesystemVersions env fs).2 ∧
       countCalls (Remote.ListFilesystemVersions env fs).2 = 1) ∧
    (∀ r b rb rs, env.marshalDestroySnapshotsReq r = .ok b →
       env.requestReply RPCSDestroySnapshots b none = .ok (rb, some rs) →
       (Remote.DestroySnapshots env r).1 =
         .error (.msg "response contains unexpected stream") ∧
       CAction.closeStream rs ∈ (Remote.DestroySnapshots env r).2 ∧
       countCalls (Remote.DestroySnapshots env r).2 = 1) ∧
    (∀ r st b rb rs, env.marshalReceiveReq r = .ok b →
       env.requestReply RPCReceive b (some st) = .ok (rb, some rs) →
       (Remote.Receive env r st).1 =
         some (.msg "response contains unexpected stream") ∧
       CAction.closeStream rs ∈ (Remote.Receive env r st).2 ∧
       countCalls (Remote.Receive env r st).2 = 1) := by
  refine ⟨?_, ?_, ?_, ?_, ?_⟩
  · intro r b rb h1 h2
    refine ⟨?_, ?_, ?_⟩ <;> simp [Remote.Send, h1, h2, countCalls]
  · intro b rb rs h1 h2
    refine ⟨?_, ?_, ?_, ?_⟩ <;> simp [Remote.ListFilesystems, h1, h2, countCalls]
  · intro fs b rb rs h1 h2
    refine ⟨?_, ?_, ?_⟩ <;> simp [Remote.ListFilesystemVersions, h1, h2, countCalls]
  · intro r b rb rs h1 h2
    refine ⟨?_, ?_, ?_⟩ <;> simp [Remote.DestroySnapshots, h1, h2, countCalls]
  · intro r st b rb rs h1 h2
    refine ⟨?_, ?_, ?_⟩ <;> simp [Remote.Receive, h1, h2, countCalls]

/-- A transport that answers Send without a stream and every other call
with a stray stream numbered 7. -/
def clientEnvW : ClientEnv :=
  { requestReply := fun name _ _ => if name = RPCSend then .ok ([], none) else .ok ([], some 7)
    marshalListFilesystemReq := .ok []
    marshalListFilesystemVersionsReq := fun _ => .ok []
    marshalSendReq := fun _ => .ok []
    marshalReceiveReq := fun _ => .ok []
    marshalDestroySnapshotsReq := fun _ => .ok []
    unmarshalListFilesystemRes := fun _ => .ok []
    unmarshalListFilesystemVersionsRes := fun _ => .ok []
    unmarshalSendRes := fun _ => .ok { ExpectedSize := 0 }
    unmarshalReceiveRes := fun _ => .ok ()
    unmarshalDestroySnapshotsRes := fun _ => .ok { Results := [] } }

theorem remote_stream_shape_protocol_witness :
    (Remote.Send clientEnvW { Filesystem := "a", From := "", To := "s" }).1 =
      .error (.msg "response does not contain a stream") ∧
    (Remote.ListFilesystems clientEnvW).1 =
      .error (.msg "response contains unexpected stream") ∧
    CAction.closeStream 7 ∈ (Remote.ListFilesystems clientEnvW).2 ∧
    (Remote.Receive clientEnvW { Filesystem := "a" } 3).1 =
      some (.msg "response contains unexpected stream") := by
  have h := remote_stream_shape_protocol clientEnvW
  refine ⟨(h.1 { Filesystem := "a", From := "", To := "s" } [] [] (by decide) (by decide)).1,
    ?_, ?_, ?_⟩
  · exact (h.2.1 [] [] 7 (by decide) (by decide)).1
  · exact (h.2.1 [] [] 7 (by decide) (by decide)).2.2.1
  · exact (h.2.2.2.2 { Filesystem := "a" } 3 [] [] 7 (by decide) (by decide)).1

/-- Modelled from the spec: the bounded-concurrency gate (semaphore.New /
Acquire / Release, absent from src - only its test is present).  A state
records the capacity, who currently holds a ticket, who is blocked in
Acquire, the log of admissions, the number of releases, who was cancelled
while waiting, and who ever called Acquire. -/
structure GateState where
  cap : Nat
  holding : List Nat
  waiting : List Nat
  admitted : List Nat
  released : Nat
  cancelled : List Nat
  arrived : List Nat
  deriving DecidableEq, Repr

/-- Events of the gate's interleaving model: an acquirer arrives (calls
Acquire), is admitted (Acquire returns a ticket), releases its ticket, or
has its context cancelled while waiting. -/
inductive GateEv where
  | arrive (i : Nat)
  | grant (i : Nat)
  | release (i : Nat)
  | cancel (i : Nat)
  deriving DecidableEq, Repr

/-- Modelled from the spec: one gate transition.  Admission requires a
free slot (fewer than cap outstanding tickets); release requires holding
a ticket; cancellation removes a waiter, who gets the cancellation error
and no ticket. -/
def gateStep (s : GateState) : GateEv → Option GateState
  | .arrive i =>
    if i ∈ s.arrived then none
    else some { s with waiting := i :: s.waiting, arrived := i :: s.arrived }
  | .grant i =>
    if i ∈ s.waiting ∧ s.holding.length < s.cap then
      some { s with waiting := s.waiting.erase i, holding := i :: s.holding,
                    admitted := i :: s.admitted }
    else none
  | .release i =>
    if i ∈ s.holding then
      some { s with holding := s.holding.erase i, released := s.released + 1 }
    else none
  | .cancel i =>
    if i ∈ s.waiting then
      some { s with waiting := s.waiting.erase i, cancelled := i :: s.cancelled }
    else none

/-- Modelled from the spec: a gate execution is a sequence of enabled
transitions. -/
def runGate (s : GateState) : List GateEv → Option GateState
  | [] => some s
  | e :: tr =>
    match gateStep s e with
    | none => none
    | some s2 => runGate s2 tr

/-- Modelled from the spec: semaphore.New with capacity n. -/
def initState (n : Nat) : GateState :=
  { cap := n, holding := [], waiting := [], admitted := [], released := 0,
    cancelled := [], arrived := [] }

/-- The inductive invariant of the gate. -/
structure GateInv (s : GateState) : Prop where
  hold_le : s.holding.length ≤ s.cap
  adm_eq : s.admitted.length = s.holding.length + s.released
  arr_eq : s.arrived.length = s.waiting.length + s.admitted.length + s.cancelled.length
  wait_nd : s.waiting.Nodup
  canc_hold : ∀ i ∈ s.cancelled, i ∉ s.holding
  canc_wait : ∀ i ∈ s.cancelled, i ∉ s.waiting
  wait_hold : ∀ i ∈ s.waiting, i ∉ s.holding
  wait_arr : ∀ i ∈ s.waiting, i ∈ s.arrived
  hold_arr : ∀ i ∈ s.holding, i ∈ s.arrived
  canc_arr : ∀ i ∈ s.cancelled, i ∈ s.arrived

theorem GateInv_init (n : Nat) : GateInv (initState n) := by
  constructor <;> simp [initState]

theorem gateStep_cap {s s2 : GateState} {e : GateEv} (h : gateStep s e = some s2) :
    s2.cap = s.cap := by
  cases e <;> (simp only [gateStep] at h; split at h) <;>
    first
      | exact Option.noConfusion h
      | (injection h with h2; rw [← h2])

theorem GateInv_step {s s2 : GateState} {e : GateEv} (hs : GateInv s)
    (h : gateStep s e = some s2) : GateInv s2 := by
  obtain ⟨h1, h2, h3, h4, h5, h6, h7, h8, h9, h10⟩ := hs
  cases e with
  | arrive i =>
    simp only [gateStep] at h
    split at h
    · exact Option.noConfusion h
    · next hni =>
      injection h with heq
      subst heq
      refine ⟨h1, h2, ?_, ?_, h5, ?_, ?_, ?_, ?_, ?_⟩
      · simp only [List.length_cons]; omega
      · exact List.nodup_cons.mpr ⟨fun hm => hni (h8 i hm), h4⟩
      · intro j hj
        simp only [List.mem_cons, not_or]
        exact ⟨fun he => hni (he ▸ h10 j hj), h6 j hj⟩
      · intro j hj
        rcases List.mem_cons.mp hj with rfl | hj2
        · exact fun hm => hni (h9 j hm)
        · exact h7 j hj2
      · intro j hj
        rcases List.mem_cons.mp hj with rfl | hj2
        · exact List.mem_cons_self j _
        · exact List.mem_cons_of_mem _ (h8 j hj2)
      · exact fun j hj => List.mem_cons_of_mem _ (h9 j hj)
      · exact fun j hj => List.mem_cons_of_mem _ (h10 j hj)
  | grant i =>
    simp only [gateStep] at h
    split at h
    · next hc =>
      injection h with heq
      subst heq
      have hwlen : (s.waiting.erase i).length = s.waiting.length - 1 :=
        List.length_erase_of_mem hc.1
      have hwpos : 0 < s.waiting.length :=
        List.length_pos.mpr (List.ne_nil_of_mem hc.1)
      refine ⟨?_, ?_, ?_, h4.erase i, ?_, ?_, ?_, ?_, ?_, h10⟩
      · simp only [List.length_cons]; omega
      · simp only [List.length_cons]; omega
      · simp only [List.length_cons, hwlen]; omega
      · intro j hj
        simp only [List.mem_cons, not_or]
        exact ⟨fun he => h6 j hj (he ▸ hc.1), h5 j hj⟩
      · exact fun j hj hm => h6 j hj (List.mem_of_mem_erase hm)
      · intro j hj
        have hj2 := (List.Nodup.mem_erase_iff h4).mp hj
        simp only [List.mem_cons, not_or]
        exact ⟨hj2.1, h7 j hj2.2⟩
      · exact fun j hj => h8 j (List.mem_of_mem_erase hj)
      · intro j hj
        rcases List.mem_cons.mp hj with rfl | hj2
        · exact h8 j hc.1
        · exact h9 j hj2
    · exact Option.noConfusion h
  | release i =>
    simp only [gateStep] at h
    split at h
    · next hc =>
      injection h with heq
      subst heq
      have hhlen : (s.holding.erase i).length = s.holding.length - 1 :=
        List.length_erase_of_mem hc
      have hhpos : 0 < s.holding.length :=
        List.length_pos.mpr (List.ne_nil_of_mem hc)
      refine ⟨?_, ?_, h3, h4, ?_, h6, ?_, h8, ?_, h10⟩
      · dsimp only
        omega
      · simp only [hhlen]; omega
      · exact fun j hj hm => h5 j hj (List.mem_of_mem_erase hm)
      · exact fun j hj hm => h7 j hj (List.mem_of_mem_erase hm)
      · exact fun j hj => h9 j (List.mem_of_mem_erase hj)
    · exact Option.noConfusion h
  | cancel i =>
    simp only [gateStep] at h
    split at h
    · next hc =>
      injection h with heq
      subst heq
      have hwlen : (s.waiting.erase i).length = s.waiting.length - 1 :=
        List.length_erase_of_mem hc
      have hwpos : 0 < s.waiting.length :=
        List.length_pos.mpr (List.ne_nil_of_mem hc)
      refine ⟨h1, h2, ?_, h4.erase i, ?_, ?_, ?_, ?_, h9, ?_⟩
      · simp only [List.length_cons, hwlen]; omega
      · intro j hj
        rcases List.mem_cons.mp hj with rfl | hj2
        · exact h7 j hc
        · exact h5 j hj2
      · intro j hj
        rcases List.mem_cons.mp hj with rfl | hj2
        · exact fun hm => ((List.Nodup.mem_erase_iff h4).mp hm).1 rfl
        · exact fun hm => h6 j hj2 (List.mem_of_mem_erase hm)
      · exact fun j hj => h7 j (List.mem_of_mem_erase hj)
      · exact fun j hj => h8 j (List.mem_of_mem_erase hj)
      · intro j hj
        rcases List.mem_cons.mp hj with rfl | hj2
        · exact h8 j hc
        · exact h10 j hj2
    · exact Option.noConfusion h

theorem GateInv_run {s s2 : GateState} {tr : List GateEv} (hs : GateInv s)
    (h : runGate s tr = some s2) : GateInv s2 := by
  induction tr generalizing s with
  | nil =>
    unfold runGate at h
    injection h with heq
    exact heq ▸ hs
  | cons e tr ih =>
    unfold runGate at h
    cases hstep : gateStep s e with
    | none => rw [hstep] at h; exact Option.noConfusion h
    | some s3 =>
      rw [hstep] at h
      exact ih (GateInv_step hs hstep) h

theorem runGate_cap {s s2 : GateState} {tr : List GateEv}
    (h : runGate s tr = some s2) : s2.cap = s.cap := by
  induction tr generalizing s with
  | nil =>
    unfold runGate at h
    injection h with heq
    exact heq ▸ rfl
  | cons e tr ih =>
    unfold runGate at h
    cases hstep : gateStep s e with
    | none => rw [hstep] at h; exact Option.noConfusion h
    | some s3 =>
      rw [hstep] at h
      exact (ih h).trans (gateStep_cap hstep)

theorem admitted_mono_step {s s2 : GateState} {e : GateEv} (h : gateStep s e = some s2) :
    s.admitted.length ≤ s2.admitted.length := by
  cases e <;> (simp only [gateStep] at h; split at h) <;>
    first
      | exact Option.noConfusion h
      | (injection h with h2; subst h2; simp)

theorem admitted_mono_run {s s2 : GateState} {tr : List GateEv}
    (h : runGate s tr = some s2) : s.admitted.length ≤ s2.admitted.length := by
  induction tr generalizing s with
  | nil =>
    unfold runGate at h
    injection h with heq
    exact heq ▸ le_refl _
  | cons e tr ih =>
    unfold runGate at h
    cases hstep : gateStep s e with
    | none => rw [hstep] at h; exact Option.noConfusion h
    | some s3 =>
      rw [hstep] at h
      exact le_trans (admitted_mono_step hstep) (ih h)

theorem runGate_append (s : GateState) (t1 t2 : List GateEv) :
    runGate s (t1 ++ t2) = (runGate s t1).bind (fun x => runGate x t2) := by
  induction t1 generalizing s with
  | nil => simp [runGate]
  | cons e t1 ih =>
    simp only [List.cons_append, runGate]
    cases hstep : gateStep s e with
    | none => simp
    | some s3 => simp [ih s3]

/-- Claim C10: for capacity N, (a) in every reachable gate state at most
N tickets are outstanding and a cancelled waiter holds no ticket and is
no longer waiting; (b) in a run where M ≥ N acquirers arrive and no one
releases or is cancelled before the end of the prefix pre, and pre ends
with either no waiter left or a full gate (the test's
everyone-arrives-before-the-first-release timing), exactly N acquirers
are admitted during pre, the remaining M − N admissions happen afterwards,
and every admission after pre happens only once at least one ticket has
been released. -/
theorem semaphore_gate_bounds (N M : Nat) (pre post : List GateEv) (sp s : GateState)
    (hM : N ≤ M)
    (hpre : runGate (initState N) pre = some sp)
    (hrel0 : sp.released = 0)
    (hcan0 : sp.cancelled = [])
    (harr : sp.arrived.length = M)
    (heager : sp.waiting = [] ∨ sp.holding.length = N)
    (hfin : runGate (initState N) (pre ++ post) = some s)
    (hfinadm : s.admitted.length = M) :
    (∀ tr x, runGate (initState N) tr = some x →
       x.holding.length ≤ N ∧ ∀ i ∈ x.cancelled, i ∉ x.holding ∧ i ∉ x.waiting) ∧
    sp.admitted.length = N ∧
    s.admitted.length - sp.admitted.length = M - N ∧
    (∀ tr1 i tr2 s1, post = tr1 ++ GateEv.grant i :: tr2 →
       runGate (initState N) (pre ++ tr1) = some s1 → 1 ≤ s1.released) := by
  have hinvp := GateInv_run (GateInv_init N) hpre
  have hcapp : sp.cap = N := runGate_cap hpre
  have hle : sp.admitted.length ≤ N := by
    have ha := hinvp.adm_eq
    have hb := hinvp.hold_le
    omega
  have hspadm : sp.admitted.length = N := by
    rcases heager with hW | hH
    · have ha := hinvp.arr_eq
      rw [hW, hcan0] at ha
      simp at ha
      omega
    · have ha := hinvp.adm_eq
      omega
  refine ⟨?_, hspadm, ?_, ?_⟩
  · intro tr x hx
    have hinv := GateInv_run (GateInv_init N) hx
    have hcap : x.cap = N := runGate_cap hx
    exact ⟨hcap ▸ hinv.hold_le, fun i hi => ⟨hinv.canc_hold i hi, hinv.canc_wait i hi⟩⟩
  · rw [hfinadm, hspadm]
  · intro tr1 i tr2 s1 hpost hrun1
    have hinv1 := GateInv_run (GateInv_init N) hrun1
    have hcap1 : s1.cap = N := runGate_cap hrun1
    have htail : runGate s1 (GateEv.grant i :: tr2) = some s := by
      have := hfin
      rw [hpost] at this
      rw [show pre ++ (tr1 ++ GateEv.grant i :: tr2) =
            (pre ++ tr1) ++ GateEv.grant i :: tr2 by simp [List.append_assoc]] at this
      rw [runGate_append, hrun1] at this
      exact this
    have hmono : sp.admitted.length ≤ s1.admitted.length := by
      have h2 := hrun1
      rw [runGate_append, hpre] at h2
      exact admitted_mono_run h2
    unfold runGate at htail
    cases hstep : gateStep s1 (GateEv.grant i) with
    | none => rw [hstep] at htail; exact Option.noConfusion htail
    | some s2 =>
      simp only [gateStep] at hstep
      split at hstep
      · next hc =>
        by_contra h0
        have hr0 : s1.released = 0 := by omega
        have ha := hinv1.adm_eq
        rw [hr0] at ha
        have hlt := hc.2
        rw [hcap1] at hlt
        omega
      · exact Option.noConfusion hstep

def preW : List GateEv :=
  [.arrive 0, .arrive 1, .arrive 2, .grant 0, .grant 1]

def postW : List GateEv := [.release 0, .grant 2]

def spW : GateState :=
  { cap := 2, holding := [1, 0], waiting := [2], admitted := [1, 0], released := 0,
    cancelled := [], arrived := [2, 1, 0] }

def sW : GateState :=
  { cap := 2, holding := [2, 1], waiting := [], admitted := [2, 1, 0], released := 1,
    cancelled := [], arrived := [2, 1, 0] }

theorem semaphore_gate_bounds_witness :
    runGate (initState 2) preW = some spW ∧
    runGate (initState 2) (preW ++ postW) = some sW ∧
    spW.admitted.length = 2 ∧
    sW.admitted.length - spW.admitted.length = 3 - 2 := by
  have h := semaphore_gate_bounds 2 3 preW postW spW sW (by decide) (by decide) (by decide)
    (by decide) (by decide) (Or.inr (by decide)) (by decide) (by decide)
  exact ⟨by decide, by decide, h.2.1, h.2.2.1⟩

end Zrepl
